import Mathlib

/-!
Shallow embedding of the t-SNE implementation in this repository.

The repository contains two variants of the same TypeScript class:
the file src/src/index.ts (namespace Src below) and the draft variant
src/unnamed/part_000 (namespace Part below).  JavaScript numbers are
modelled by exact rationals; the calls into the JavaScript Math library
(Math.exp, Math.log, Math.log2, Math.pow(2, -)) are modelled by an
abstract structure of primitives, since both variants invoke the very
same library functions.  Flat n*n arrays indexed by i*n+j are modelled
by functions of the two indices; the embedding matrix Y, which the code
materializes row by row, is modelled by a list of rows.
-/

namespace TSNEVerify

/-- Abstract transcendentals: Math.exp, Math.log, Math.log2 and
Math.pow(2, -) as used by both variants of the source. -/
structure MathPrims where
  exp : ℚ → ℚ
  log : ℚ → ℚ
  log2 : ℚ → ℚ
  pow2 : ℚ → ℚ

/-- The configuration after the constructor has merged the caller
configuration with defaultConfig, so every field is present. -/
structure TSNEConfig where
  nDims : ℕ
  perplexity : ℚ
  learningRate : ℚ
  nIter : ℕ
deriving DecidableEq

/-- defaultConfig of both variants: nDims 2, perplexity 30,
learningRate 1.0, nIter 100. -/
def defaultConfig : TSNEConfig :=
  { nDims := 2, perplexity := 30, learningRate := 1, nIter := 100 }

/-- squaredEuclideanDistance (index.ts lines 289-299, part_000 lines
288-298): for i below a.length, dimDifference = a[i] - b[i] and
sum += dimDifference * dimDifference. -/
def squaredEuclideanDistance (a b : List ℚ) : ℚ :=
  ∑ i ∈ Finset.range a.length,
    (a.getD i 0 - b.getD i 0) * (a.getD i 0 - b.getD i 0)

/-- Net effect of the loops of getPairwiseDistances (index.ts lines
97-117, part_000 lines 108-124) on the flat n*n buffer: the diagonal is
written as 0, and for i < j the value squaredEuclideanDistance(X[i], X[j])
is written to both cells (i,j) and (j,i). -/
def getPairwiseDistances (X : List (List ℚ)) (i j : ℕ) : ℚ :=
  if i = j then 0
  else if i < j then squaredEuclideanDistance (X.getD i []) (X.getD j [])
  else squaredEuclideanDistance (X.getD j []) (X.getD i [])

/-- The unnormalized entries written by the first loop of getAffinities
(index.ts lines 235-243, part_000 lines 250-258): the self entry is set
to 0, every other entry is exp(-pointDistances[i] / (2 * sigma * sigma)). -/
def affinityRaw (P : MathPrims) (pd : ℕ → ℚ) (sigma : ℚ) (rowNo i : ℕ) : ℚ :=
  if i = rowNo then 0 else P.exp (-(pd i) / (2 * sigma * sigma))

/-- The accumulator sum of getAffinities: only the indices different from
rowNo contribute (the loop skips i = rowNo with continue). -/
def affinitySum (P : MathPrims) (n : ℕ) (pd : ℕ → ℚ) (sigma : ℚ) (rowNo : ℕ) : ℚ :=
  ∑ i ∈ (Finset.range n).erase rowNo, affinityRaw P pd sigma rowNo i

/-- getAffinities (index.ts lines 231-246, part_000 lines 241-263): the
unnormalized entries divided by the accumulated sum.  Both variants
divide every entry, the self entry 0 included. -/
def getAffinities (P : MathPrims) (n : ℕ) (pd : ℕ → ℚ) (sigma : ℚ)
    (rowNo i : ℕ) : ℚ :=
  affinityRaw P pd sigma rowNo i / affinitySum P n pd sigma rowNo

/-- getPerplexity (index.ts lines 248-257, part_000 lines 265-273):
H = -sum of p * log2(p + 1e-10) over the affinity row (an array of
length n), perplexity = 2 ^ H. -/
def getPerplexity (P : MathPrims) (n : ℕ) (aff : ℕ → ℚ) : ℚ :=
  P.pow2 (-∑ i ∈ Finset.range n, aff i * P.log2 (aff i + 1 / 10000000000))

/-- The reduce in getInitialSigmaUpperBound (index.ts line 226, part_000
line 236): maximum of the flat n*n distance buffer, starting from 0. -/
def maxDistance (n : ℕ) (dist : ℕ → ℕ → ℚ) : ℚ :=
  ((List.range (n * n)).map fun k => dist (k / n) (k % n)).foldl max 0

/-- getInitialSigmaUpperBound (index.ts lines 225-229, part_000 lines
235-239): Math.log(maxDistance + 1e-6) + 10. -/
def getInitialSigmaUpperBound (P : MathPrims) (n : ℕ) (dist : ℕ → ℕ → ℚ) : ℚ :=
  P.log (maxDistance n dist + 1 / 1000000) + 10

/-- The inner binary-search loop of findBestSigmas (index.ts lines
136-150 with tolerance 1e-6, part_000 lines 143-157 with tolerance 1e-3;
the tolerance is the only difference, so it is a parameter here).  fuel
is the number of loop iterations still allowed (50 at the start); each
iteration sets sigma to the interval midpoint, breaks when the computed
perplexity is within the tolerance of the target, and otherwise moves
one interval bound to sigma.  When the fuel runs out the JS loop keeps
the sigma computed in the last iteration, hence the fuel = 0 guard. -/
def sigmaLoop (P : MathPrims) (target tol : ℚ) (n : ℕ) (pd : ℕ → ℚ)
    (rowNo : ℕ) : ℕ → ℚ → ℚ → ℚ
  | 0, lower, upper => (upper + lower) / 2
  | fuel + 1, lower, upper =>
    let sigma := (upper + lower) / 2
    let perplexity := getPerplexity P n (getAffinities P n pd sigma rowNo)
    if |perplexity - target| ≤ tol then sigma
    else if fuel = 0 then sigma
    else if perplexity < target then sigmaLoop P target tol n pd rowNo fuel sigma upper
    else sigmaLoop P target tol n pd rowNo fuel lower sigma

/-- The same loop instrumented with the number of iterations the JS loop
actually executes (used to state that the 50 iteration cap is respected
and that exhausting it is not an error). -/
def sigmaLoopSteps (P : MathPrims) (target tol : ℚ) (n : ℕ) (pd : ℕ → ℚ)
    (rowNo : ℕ) : ℕ → ℚ → ℚ → ℚ × ℕ
  | 0, lower, upper => ((upper + lower) / 2, 0)
  | fuel + 1, lower, upper =>
    let sigma := (upper + lower) / 2
    let perplexity := getPerplexity P n (getAffinities P n pd sigma rowNo)
    if |perplexity - target| ≤ tol then (sigma, 1)
    else if fuel = 0 then (sigma, 1)
    else if perplexity < target then
      let r := sigmaLoopSteps P target tol n pd rowNo fuel sigma upper
      (r.1, r.2 + 1)
    else
      let r := sigmaLoopSteps P target tol n pd rowNo fuel lower sigma
      (r.1, r.2 + 1)

/-- findBestSigmas (index.ts lines 119-156, part_000 lines 126-163) for
one point i: the slice of the flat distance buffer from i*n to (i+1)*n
is the row fun j => dist i j; the search interval starts at
[1e-3, getInitialSigmaUpperBound]; sigmasMaxIterations is 50. -/
def findBestSigmasWith (P : MathPrims) (cfg : TSNEConfig) (tol : ℚ) (n : ℕ)
    (dist : ℕ → ℕ → ℚ) (i : ℕ) : ℚ :=
  sigmaLoop P cfg.perplexity tol n (fun j => dist i j) i 50 (1 / 1000)
    (getInitialSigmaUpperBound P n dist)

/-- getSymmetricAffinities (index.ts lines 158-180, part_000 lines
165-188): conditional rows recomputed with the calibrated sigmas; then
for every pair i < j the value p = (affinities[i][j] + affinities[j][i])
/ (2 * n) is written to both cells (i,j) and (j,i); the diagonal keeps
its fill(0).  As a function of an arbitrary cell (i,j) with i ≠ j the
value is (affinities[i][j] + affinities[j][i]) / (2 * n), since the
expression is symmetric under swapping i and j. -/
def getSymmetricAffinities (P : MathPrims) (n : ℕ) (dist : ℕ → ℕ → ℚ)
    (sigmas : ℕ → ℚ) (i j : ℕ) : ℚ :=
  if i = j then 0
  else (getAffinities P n (fun k => dist i k) (sigmas i) i j
      + getAffinities P n (fun k => dist j k) (sigmas j) j i) / (2 * n)

/-- initRandomProjection (index.ts lines 182-194, part_000 lines
190-202): Y[i][j] = Math.random() - 0.5, with the random values drawn in
row-major order from the stream rand. -/
def initRandomProjection (rand : ℕ → ℚ) (n nDims : ℕ) : List (List ℚ) :=
  (List.range n).map fun i =>
    (List.range nDims).map fun j => rand (i * nDims + j) - 1 / 2

/-- getMomentum (index.ts lines 196-203, part_000 lines 204-211):
momentumStart + (momentumEnd - momentumStart) * iter / nIter with
momentumStart 0.5 and momentumEnd 0.8. -/
def getMomentum (cfg : TSNEConfig) (iter : ℕ) : ℚ :=
  5 / 10 + ((8 / 10 - 5 / 10) * iter) / cfg.nIter

namespace Src

/-- The unnormalized Student-t entries written by the first loop of
getProjectedAffinities (index.ts lines 265-277): diagonal entries stay
fill(0); for i < j the value 1 / (1 + squaredEuclideanDistance(Y[i], Y[j]))
is written to both cells (i,j) and (j,i). -/
def projRaw (Y : List (List ℚ)) (i j : ℕ) : ℚ :=
  if i = j then 0
  else if i < j then 1 / (1 + squaredEuclideanDistance (Y.getD i []) (Y.getD j []))
  else 1 / (1 + squaredEuclideanDistance (Y.getD j []) (Y.getD i []))

/-- The accumulator of getProjectedAffinities: sum += 2 * affinity over
the strict upper triangle (index.ts line 275). -/
def projSum (n : ℕ) (Y : List (List ℚ)) : ℚ :=
  ∑ i ∈ Finset.range n, ∑ j ∈ Finset.Ico (i + 1) n,
    2 * (1 / (1 + squaredEuclideanDistance (Y.getD i []) (Y.getD j [])))

/-- getProjectedAffinities (index.ts lines 259-286): the second loop
divides every cell of the buffer by the accumulated sum (the loop bound
Y.length equals n throughout the pipeline). -/
def getProjectedAffinities (n : ℕ) (Y : List (List ℚ)) (i j : ℕ) : ℚ :=
  projRaw Y i j / projSum n Y

/-- getGradient (index.ts lines 205-223): cell i*nDims+k of the flat
gradient accumulates, over j < n,
4 * ((affinities[i][j] - projected[i][j]) * (1 / (1 + d(Y[i], Y[j]))))
  * (Y[i][k] - Y[j][k]). -/
def getGradient (aff : ℕ → ℕ → ℚ) (n : ℕ) (Y : List (List ℚ)) (i k : ℕ) : ℚ :=
  ∑ j ∈ Finset.range n,
    4 * ((aff i j - getProjectedAffinities n Y i j)
        * (1 / (1 + squaredEuclideanDistance (Y.getD i []) (Y.getD j []))))
      * ((Y.getD i []).getD k 0 - (Y.getD j []).getD k 0)

/-- findBestSigmas of index.ts, whose tolerance constant (line 141)
is 1e-6. -/
def findBestSigmas (P : MathPrims) (cfg : TSNEConfig) (n : ℕ)
    (dist : ℕ → ℕ → ℚ) (i : ℕ) : ℚ :=
  findBestSigmasWith P cfg (1 / 1000000) n dist i

/-- The sigma vector of one transform call of index.ts. -/
def sigmasOf (P : MathPrims) (cfg : TSNEConfig) (X : List (List ℚ)) (i : ℕ) : ℚ :=
  findBestSigmas P cfg X.length (getPairwiseDistances X) i

/-- The symmetric affinity matrix of one transform call of index.ts. -/
def affOf (P : MathPrims) (cfg : TSNEConfig) (X : List (List ℚ)) : ℕ → ℕ → ℚ :=
  getSymmetricAffinities P X.length (getPairwiseDistances X) (sigmasOf P cfg X)

/-- One iteration of the optimizer loop of transform (index.ts lines
43-60): given (Y, YPrev), build YNew cell by cell as
Y[j][k] - gradient[j*nDims+k] * learningRate + (Y[j][k] - YPrev[j][k]) * momentum
and shift the pair to (YNew, Y). -/
def optStep (cfg : TSNEConfig) (aff : ℕ → ℕ → ℚ) (n : ℕ) (i : ℕ)
    (s : List (List ℚ) × List (List ℚ)) : List (List ℚ) × List (List ℚ) :=
  let momentum := getMomentum cfg i
  let Y := s.1
  let YPrev := s.2
  ((List.range n).map fun j => (List.range cfg.nDims).map fun k =>
      (Y.getD j []).getD k 0 - getGradient aff n Y j k * cfg.learningRate
        + ((Y.getD j []).getD k 0 - (YPrev.getD j []).getD k 0) * momentum,
   Y)

/-- The optimizer state after k iterations of the loop of transform
(index.ts lines 39-60), starting from Y and YPrev both equal to the
random projection. -/
def optimize (P : MathPrims) (cfg : TSNEConfig) (rand : ℕ → ℚ)
    (X : List (List ℚ)) (k : ℕ) : List (List ℚ) × List (List ℚ) :=
  let Y0 := initRandomProjection rand X.length cfg.nDims
  (List.range k).foldl (fun s i => optStep cfg (affOf P cfg X) X.length i s) (Y0, Y0)

/-- transform (index.ts lines 29-63) after validation: n = X.length, the
distance matrix, sigmas and affinities are computed once, Y is randomly
initialized, the loop runs for i = 0 .. nIter-1, and the final Y is
returned. -/
def transform (P : MathPrims) (cfg : TSNEConfig) (rand : ℕ → ℚ)
    (X : List (List ℚ)) : List (List ℚ) :=
  (optimize P cfg rand X cfg.nIter).1

end Src

namespace Part

/-- invertedDistances (part_000 lines 300-310): for every j ≥ i,
d = 1 / (1 + distances[i*n+j]) is written to both cells (i,j) and (j,i);
the diagonal is included, receiving 1 / (1 + 0) = 1. -/
def invertedDistances (dist : ℕ → ℕ → ℚ) (i j : ℕ) : ℚ :=
  if i ≤ j then 1 / (1 + dist i j) else 1 / (1 + dist j i)

/-- The accumulator of updateProjectedAffinities (part_000 lines
276-280): the sum of the whole flat n*n invertedDistancesY buffer,
diagonal included. -/
def projSum (n : ℕ) (Y : List (List ℚ)) : ℚ :=
  ∑ i ∈ Finset.range n, ∑ j ∈ Finset.range n,
    invertedDistances (getPairwiseDistances Y) i j

/-- updateProjectedAffinities (part_000 lines 275-285): every cell of
invertedDistancesY divided by that total sum. -/
def projectedAffinities (n : ℕ) (Y : List (List ℚ)) (i j : ℕ) : ℚ :=
  invertedDistances (getPairwiseDistances Y) i j / projSum n Y

/-- updateGradient (part_000 lines 213-233): cell i*nDims+k accumulates,
over j < n,
4 * ((affinities[i][j] - projectedAffinities[i*n+j]) * invertedDistancesY[i*n+j])
  * (Y[i][k] - Y[j][k]). -/
def updateGradient (aff : ℕ → ℕ → ℚ) (n : ℕ) (Y : List (List ℚ)) (i k : ℕ) : ℚ :=
  ∑ j ∈ Finset.range n,
    4 * ((aff i j - projectedAffinities n Y i j)
        * invertedDistances (getPairwiseDistances Y) i j)
      * ((Y.getD i []).getD k 0 - (Y.getD j []).getD k 0)

/-- findBestSigmas of part_000, whose tolerance constant (line 148)
is 1e-3. -/
def findBestSigmas (P : MathPrims) (cfg : TSNEConfig) (n : ℕ)
    (dist : ℕ → ℕ → ℚ) (i : ℕ) : ℚ :=
  findBestSigmasWith P cfg (1 / 1000) n dist i

/-- The sigma vector of one transform call of part_000. -/
def sigmasOf (P : MathPrims) (cfg : TSNEConfig) (X : List (List ℚ)) (i : ℕ) : ℚ :=
  findBestSigmas P cfg X.length (getPairwiseDistances X) i

/-- The symmetric affinity matrix of one transform call of part_000. -/
def affOf (P : MathPrims) (cfg : TSNEConfig) (X : List (List ℚ)) : ℕ → ℕ → ℚ :=
  getSymmetricAffinities P X.length (getPairwiseDistances X) (sigmasOf P cfg X)

/-- One iteration of the optimizer loop of transform (part_000 lines
56-71).  The loop mutates the shared buffers in place, but the gradient
is fully computed from the old Y before the coordinate loop, and every
cell (j,k) is read (from Y, YPrev and the gradient at the same index)
before it is overwritten, so the net effect on (Y, YPrev) is the pure
update below. -/
def optStep (cfg : TSNEConfig) (aff : ℕ → ℕ → ℚ) (n : ℕ) (i : ℕ)
    (s : List (List ℚ) × List (List ℚ)) : List (List ℚ) × List (List ℚ) :=
  let momentum := getMomentum cfg i
  let Y := s.1
  let YPrev := s.2
  ((List.range n).map fun j => (List.range cfg.nDims).map fun k =>
      (Y.getD j []).getD k 0 - updateGradient aff n Y j k * cfg.learningRate
        + ((Y.getD j []).getD k 0 - (YPrev.getD j []).getD k 0) * momentum,
   Y)

/-- The optimizer state after k iterations of the loop of transform
(part_000 lines 52-71). -/
def optimize (P : MathPrims) (cfg : TSNEConfig) (rand : ℕ → ℚ)
    (X : List (List ℚ)) (k : ℕ) : List (List ℚ) × List (List ℚ) :=
  let Y0 := initRandomProjection rand X.length cfg.nDims
  (List.range k).foldl (fun s i => optStep cfg (affOf P cfg X) X.length i s) (Y0, Y0)

/-- transform (part_000 lines 36-74) after validation. -/
def transform (P : MathPrims) (cfg : TSNEConfig) (rand : ℕ → ℚ)
    (X : List (List ℚ)) : List (List ℚ) :=
  (optimize P cfg rand X cfg.nIter).1

end Part

/-- A JavaScript value as far as validateInput can distinguish them:
a number (carrying whether it is finite, so NaN and Infinity are the
values with isFinite = false), an array, or anything else (string,
object, null, undefined, boolean). -/
inductive JSVal where
  | num (isFinite : Bool) (v : ℚ)
  | arr (elems : List JSVal)
  | other

/-- Which structural constraint a DataValidationError reports (index.ts
lines 65-95, part_000 lines 76-106; the two variants are identical). -/
inductive ValidationError where
  | notAnArray
  | tooFewRows
  | rowNotArray (i : ℕ)
  | raggedRow (i : ℕ)
  | nonNumberInRow (i : ℕ)
deriving DecidableEq

/-- The JS typeof item === "number" test: true exactly for number
values, finite or not. -/
def isNumber : JSVal → Bool
  | .num _ _ => true
  | _ => false

/-- The for..in loop of validateInput over the rows, carrying the
current index and the length of row 0: each row must be an array, must
have the length of row 0, and all of its items must be numbers; the
first violation is reported. -/
def checkRows (len0 : ℕ) : ℕ → List JSVal → Option ValidationError
  | _, [] => none
  | i, row :: rest =>
    match row with
    | .arr elems =>
      if elems.length ≠ len0 then some (.raggedRow i)
      else if elems.all isNumber then checkRows len0 (i + 1) rest
      else some (.nonNumberInRow i)
    | _ => some (.rowNotArray i)

/-- validateInput (index.ts lines 65-95, part_000 lines 76-106):
Array.isArray(X), then X.length < 2, then the row loop.  X[0].length is
only read after row 0 has passed its own isArray check (the loop visits
index 0 first), so taking 0 as the default below never influences the
result. -/
def validateInput (X : JSVal) : Option ValidationError :=
  match X with
  | .arr rows =>
    if rows.length < 2 then some .tooFewRows
    else
      checkRows (match rows with
        | .arr elems :: _ => elems.length
        | _ => 0) 0 rows
  | _ => some .notAnArray

/-- The rejection condition exactly as claimed (and as section 4.1 of
the specification words it): the input is not an array, has fewer than
2 rows, has a row that is not an array or whose length differs from row
0, or contains an element that is not a finite number.  This definition
follows the words of the claim, to be compared with validateInput. -/
def specRejects (X : JSVal) : Bool :=
  match X with
  | .arr rows =>
    decide (rows.length < 2)
      || rows.any fun row =>
          match row with
          | .arr elems =>
            decide (elems.length ≠ (match rows with
              | .arr e0 :: _ => e0.length
              | _ => 0))
              || elems.any fun e =>
                  match e with
                  | .num f _ => !f
                  | _ => true
          | _ => true
  | _ => true

/-- The amended rejection condition: as specRejects, except that an
element is only rejected when it is not a number at all (the JS typeof
check), so non-finite numbers such as NaN and Infinity pass.  This
definition follows the words of the amended claim, to be compared with
validateInput. -/
def codeRejects (X : JSVal) : Bool :=
  match X with
  | .arr rows =>
    decide (rows.length < 2)
      || rows.any fun row =>
          match row with
          | .arr elems =>
            decide (elems.length ≠ (match rows with
              | .arr e0 :: _ => e0.length
              | _ => 0))
              || elems.any fun e => !(isNumber e)
          | _ => true
  | _ => true

/-- A concrete input whose entries all have JS type number but one of
which is NaN (modelled as num false 0): two rows of length 1. -/
def nanInput : JSVal :=
  .arr [.arr [.num false 0], .arr [.num true 0]]

/-- A concrete embedding matrix, obtained as the random projection for
the random stream 3/4, 1/4 with n = 2 points in 1 dimension: the rows
are [1/4] and [-1/4]. -/
def c1Y : List (List ℚ) :=
  initRandomProjection (fun k => if k = 0 then 3 / 4 else 1 / 4) 2 1

/-- Concrete primitives for running the two transform variants: exp is
constantly 1, log and log2 constantly 0, and 2 ^ H constantly 30, so
every binary-search step computes perplexity 30. -/
def c3Prims : MathPrims :=
  ⟨fun _ => 1, fun _ => 0, fun _ => 0, fun _ => 30⟩

/-- Concrete configuration: one output dimension, target perplexity 30,
learning rate 1, a single optimizer iteration. -/
def c3Cfg : TSNEConfig := ⟨1, 30, 1, 1⟩

/-- The same configuration with zero optimizer iterations. -/
def c3CfgZero : TSNEConfig := ⟨1, 30, 1, 0⟩

/-- Concrete random stream: 3/4 then 1/4 (then 1/4 forever). -/
def c3Rand : ℕ → ℚ := fun k => if k = 0 then 3 / 4 else 1 / 4

/-- Concrete valid input: two points in one dimension. -/
def c3X : List (List ℚ) := [[0], [1]]

/-- Concrete primitives for witnesses: exp constantly 1 (positive), log
and log2 constantly 0, 2 ^ H constantly 30. -/
def cWitPrims : MathPrims :=
  ⟨fun _ => 1, fun _ => 0, fun _ => 0, fun _ => 30⟩

theorem sqdist_self (a : List ℚ) : squaredEuclideanDistance a a = 0 := by
  simp [squaredEuclideanDistance]

theorem sqdist_nonneg (a b : List ℚ) : 0 ≤ squaredEuclideanDistance a b :=
  Finset.sum_nonneg fun _ _ => mul_self_nonneg _

theorem sqdist_comm (a b : List ℚ) (h : a.length = b.length) :
    squaredEuclideanDistance a b = squaredEuclideanDistance b a := by
  unfold squaredEuclideanDistance
  rw [h]
  exact Finset.sum_congr rfl fun i _ => by ring

theorem pairwise_diag (X : List (List ℚ)) (i : ℕ) :
    getPairwiseDistances X i i = 0 := by
  simp [getPairwiseDistances]

theorem pairwise_symm (X : List (List ℚ)) (i j : ℕ) :
    getPairwiseDistances X i j = getPairwiseDistances X j i := by
  rcases lt_trichotomy i j with h | h | h
  · simp [getPairwiseDistances, ne_of_lt h, (ne_of_lt h).symm, h, Nat.lt_asymm h]
  · simp [getPairwiseDistances, h]
  · simp [getPairwiseDistances, ne_of_lt h, (ne_of_lt h).symm, h, Nat.lt_asymm h]

theorem pairwise_nonneg (X : List (List ℚ)) (i j : ℕ) :
    0 ≤ getPairwiseDistances X i j := by
  unfold getPairwiseDistances
  split_ifs
  · exact le_refl 0
  · exact sqdist_nonneg _ _
  · exact sqdist_nonneg _ _

theorem getD_length_of_mem (X : List (List ℚ)) (m : ℕ)
    (hm : ∀ r ∈ X, r.length = m) (i : ℕ) (hi : i < X.length) :
    (X.getD i []).length = m := by
  have h1 : X.getD i [] = X[i] := by
    simp [List.getD_eq_getElem?_getD, List.getElem?_eq_getElem hi]
  rw [h1]
  exact hm _ (List.getElem_mem hi)

theorem pairwise_entry (X : List (List ℚ)) (m : ℕ)
    (hm : ∀ r ∈ X, r.length = m) (i j : ℕ) (hi : i < X.length)
    (hj : j < X.length) (hij : i ≠ j) :
    getPairwiseDistances X i j
      = squaredEuclideanDistance (X.getD i []) (X.getD j []) := by
  unfold getPairwiseDistances
  rw [if_neg hij]
  by_cases h : i < j
  · rw [if_pos h]
  · rw [if_neg h]
    exact sqdist_comm _ _ (by
      rw [getD_length_of_mem X m hm j hj, getD_length_of_mem X m hm i hi])

/-- C9: the squared Euclidean distance of a vector to itself is 0, the
distance between equal-length vectors is symmetric, and it equals the
sum of the squared per-dimension differences. -/
theorem c9_squared_euclidean_distance (a b : List ℚ) (h : a.length = b.length) :
    squaredEuclideanDistance a a = 0
    ∧ squaredEuclideanDistance a b = squaredEuclideanDistance b a
    ∧ squaredEuclideanDistance a b
        = ∑ i ∈ Finset.range a.length,
            (a.getD i 0 - b.getD i 0) * (a.getD i 0 - b.getD i 0) :=
  ⟨sqdist_self a, sqdist_comm a b h, rfl⟩

theorem c9_witness :
    ([(0 : ℚ), 1].length = [(2 : ℚ), 3].length)
    ∧ (squaredEuclideanDistance [(0 : ℚ), 1] [(0 : ℚ), 1] = 0
      ∧ squaredEuclideanDistance [(0 : ℚ), 1] [(2 : ℚ), 3]
          = squaredEuclideanDistance [(2 : ℚ), 3] [(0 : ℚ), 1]
      ∧ squaredEuclideanDistance [(0 : ℚ), 1] [(2 : ℚ), 3]
          = ∑ i ∈ Finset.range [(0 : ℚ), 1].length,
              ([(0 : ℚ), 1].getD i 0 - [(2 : ℚ), 3].getD i 0)
                * ([(0 : ℚ), 1].getD i 0 - [(2 : ℚ), 3].getD i 0)) :=
  ⟨rfl, c9_squared_euclidean_distance [0, 1] [2, 3] rfl⟩

/-- C7: for a matrix of equal-length rows the pairwise distance matrix
is symmetric, has zero diagonal, and its off-diagonal entry (i,j) is the
squared Euclidean distance between rows i and j.  The statement is for
an arbitrary such matrix, so it covers the input X and every
intermediate embedding Y. -/
theorem c7_pairwise_distances (X : List (List ℚ)) (m : ℕ)
    (hm : ∀ r ∈ X, r.length = m) :
    (∀ i j, getPairwiseDistances X i j = getPairwiseDistances X j i)
    ∧ (∀ i, getPairwiseDistances X i i = 0)
    ∧ (∀ i j, i < X.length → j < X.length → i ≠ j →
        getPairwiseDistances X i j
          = squaredEuclideanDistance (X.getD i []) (X.getD j [])) :=
  ⟨pairwise_symm X, pairwise_diag X,
   fun i j hi hj hij => pairwise_entry X m hm i j hi hj hij⟩

theorem c7_witness :
    (∀ r ∈ [[(0 : ℚ)], [1]], r.length = 1)
    ∧ ((∀ i j, getPairwiseDistances [[(0 : ℚ)], [1]] i j
          = getPairwiseDistances [[(0 : ℚ)], [1]] j i)
      ∧ (∀ i, getPairwiseDistances [[(0 : ℚ)], [1]] i i = 0)
      ∧ (∀ i j, i < [[(0 : ℚ)], [1]].length → j < [[(0 : ℚ)], [1]].length →
          i ≠ j →
          getPairwiseDistances [[(0 : ℚ)], [1]] i j
            = squaredEuclideanDistance ([[(0 : ℚ)], [1]].getD i [])
                ([[(0 : ℚ)], [1]].getD j []))) :=
  ⟨by decide, c7_pairwise_distances [[0], [1]] 1 (by decide)⟩

theorem checkRows_none (len0 : ℕ) (rows : List JSVal) (i : ℕ) :
    checkRows len0 i rows = none
      ↔ (rows.any fun row =>
          match row with
          | .arr elems =>
            decide (elems.length ≠ len0) || elems.any fun e => !(isNumber e)
          | _ => true) = false := by
  induction rows generalizing i with
  | nil => simp [checkRows]
  | cons row rest ih =>
    cases row with
    | arr elems =>
      simp only [checkRows, List.any_cons]
      by_cases hlen : elems.length = len0
      · rw [if_neg (by simp [hlen])]
        by_cases hall : elems.all isNumber
        · rw [if_pos hall]
          have h2 : (elems.any fun e => !(isNumber e)) = false := by
            rw [List.any_eq_false]
            intro e he
            have h3 := List.all_eq_true.mp hall e he
            simp [h3]
          rw [ih]
          simp [h2, hlen]
        · rw [if_neg hall]
          have h2 : (elems.any fun e => !(isNumber e)) = true := by
            rw [List.any_eq_true]
            obtain ⟨e, he, hne⟩ := List.all_eq_false.mp (Bool.eq_false_iff.mpr hall)
            exact ⟨e, he, by simpa using hne⟩
          simp [h2]
      · rw [if_pos (by simpa using hlen)]
        simp [hlen]
    | num f v => simp [checkRows]
    | other => simp [checkRows]

/-- C2 amended: validateInput accepts exactly when the input is an array
of at least 2 rows, every row is an array of the length of row 0, and
every element has JS type number; non-finite numeric entries such as NaN
or Infinity are accepted. -/
theorem c2_validation (X : JSVal) :
    validateInput X = none ↔ codeRejects X = false := by
  cases X with
  | num f v => simp [validateInput, codeRejects]
  | other => simp [validateInput, codeRejects]
  | arr rows =>
    by_cases hlen : rows.length < 2
    · simp [validateInput, codeRejects, hlen]
    · simp only [validateInput, codeRejects, if_neg hlen]
      rw [checkRows_none]
      simp [hlen]

/-- C2 counterexample: an input containing NaN (a value of JS type
number that is not finite) passes validateInput, although the claimed
rejection condition holds for it, so the claimed equivalence fails. -/
theorem c2_counterexample :
    validateInput nanInput = none ∧ specRejects nanInput = true :=
  ⟨rfl, rfl⟩

theorem affinityRaw_nonneg (P : MathPrims) (hexp : ∀ x, 0 < P.exp x)
    (pd : ℕ → ℚ) (sigma : ℚ) (r i : ℕ) : 0 ≤ affinityRaw P pd sigma r i := by
  unfold affinityRaw
  split_ifs
  · exact le_refl 0
  · exact (hexp _).le

theorem affinitySum_pos (P : MathPrims) (hexp : ∀ x, 0 < P.exp x) (n : ℕ)
    (pd : ℕ → ℚ) (sigma : ℚ) (r : ℕ) (hn : 2 ≤ n) :
    0 < affinitySum P n pd sigma r := by
  unfold affinitySum
  apply Finset.sum_pos
  · intro i hi
    have hir : i ≠ r := Finset.ne_of_mem_erase hi
    simp only [affinityRaw, if_neg hir]
    exact hexp _
  · rcases eq_or_ne r 0 with h0 | h0
    · exact ⟨1, Finset.mem_erase.mpr ⟨by simp [h0], Finset.mem_range.mpr (by omega)⟩⟩
    · exact ⟨0, Finset.mem_erase.mpr ⟨Ne.symm h0, Finset.mem_range.mpr (by omega)⟩⟩

theorem getAffinities_self (P : MathPrims) (n : ℕ) (pd : ℕ → ℚ) (sigma : ℚ)
    (r : ℕ) : getAffinities P n pd sigma r r = 0 := by
  simp [getAffinities, affinityRaw]

theorem getAffinities_nonneg (P : MathPrims) (hexp : ∀ x, 0 < P.exp x) (n : ℕ)
    (pd : ℕ → ℚ) (sigma : ℚ) (r : ℕ) (hn : 2 ≤ n) (i : ℕ) :
    0 ≤ getAffinities P n pd sigma r i :=
  div_nonneg (affinityRaw_nonneg P hexp pd sigma r i)
    (affinitySum_pos P hexp n pd sigma r hn).le

theorem affinityRaw_total (P : MathPrims) (n : ℕ) (pd : ℕ → ℚ) (sigma : ℚ)
    (r : ℕ) (hr : r < n) :
    ∑ i ∈ Finset.range n, affinityRaw P pd sigma r i
      = affinitySum P n pd sigma r := by
  unfold affinitySum
  rw [← Finset.add_sum_erase (Finset.range n) _ (Finset.mem_range.mpr hr)]
  simp [affinityRaw]

theorem getAffinities_row_sum (P : MathPrims) (hexp : ∀ x, 0 < P.exp x)
    (n : ℕ) (pd : ℕ → ℚ) (sigma : ℚ) (r : ℕ) (hn : 2 ≤ n) (hr : r < n) :
    ∑ i ∈ Finset.range n, getAffinities P n pd sigma r i = 1 := by
  unfold getAffinities
  rw [← Finset.sum_div, affinityRaw_total P n pd sigma r hr]
  exact div_self (ne_of_gt (affinitySum_pos P hexp n pd sigma r hn))

/-- C5: every conditional Gaussian affinity row computed by getAffinities
(for any sigma, in particular each sigma tried or kept by the
calibration, and any distance row) has non-negative entries, self entry
0, and sums exactly to 1; positivity of the exponential is the one
analytic fact about Math.exp the proof needs, so it is a hypothesis on
the abstract primitives. -/
theorem c5_affinity_row (P : MathPrims) (n : ℕ) (pd : ℕ → ℚ) (sigma : ℚ)
    (r : ℕ) (hexp : ∀ x, 0 < P.exp x) (hn : 2 ≤ n) (hr : r < n) :
    (∀ i, 0 ≤ getAffinities P n pd sigma r i)
    ∧ getAffinities P n pd sigma r r = 0
    ∧ ∑ i ∈ Finset.range n, getAffinities P n pd sigma r i = 1 :=
  ⟨getAffinities_nonneg P hexp n pd sigma r hn,
   getAffinities_self P n pd sigma r,
   getAffinities_row_sum P hexp n pd sigma r hn hr⟩

theorem c5_witness :
    (∀ x : ℚ, 0 < cWitPrims.exp x) ∧ 2 ≤ 2 ∧ 0 < 2
    ∧ ((∀ i, 0 ≤ getAffinities cWitPrims 2
          (fun k => getPairwiseDistances c3X 0 k)
          (Src.sigmasOf cWitPrims defaultConfig c3X 0) 0 i)
      ∧ getAffinities cWitPrims 2 (fun k => getPairwiseDistances c3X 0 k)
          (Src.sigmasOf cWitPrims defaultConfig c3X 0) 0 0 = 0
      ∧ ∑ i ∈ Finset.range 2,
          getAffinities cWitPrims 2 (fun k => getPairwiseDistances c3X 0 k)
            (Src.sigmasOf cWitPrims defaultConfig c3X 0) 0 i = 1) :=
  ⟨fun x => by show (0 : ℚ) < 1; norm_num, by omega, by omega,
   c5_affinity_row cWitPrims 2 (fun k => getPairwiseDistances c3X 0 k)
     (Src.sigmasOf cWitPrims defaultConfig c3X 0) 0
     (fun x => by show (0 : ℚ) < 1; norm_num) (by omega) (by omega)⟩

theorem symAff_entry (P : MathPrims) (n : ℕ) (dist : ℕ → ℕ → ℚ)
    (sigmas : ℕ → ℚ) (i j : ℕ) :
    getSymmetricAffinities P n dist sigmas i j
      = (getAffinities P n (fun k => dist i k) (sigmas i) i j
        + getAffinities P n (fun k => dist j k) (sigmas j) j i) / (2 * n) := by
  unfold getSymmetricAffinities
  by_cases h : i = j
  · subst h
    simp [getAffinities_self]
  · rw [if_neg h]

theorem symAff_symm (P : MathPrims) (n : ℕ) (dist : ℕ → ℕ → ℚ)
    (sigmas : ℕ → ℚ) (i j : ℕ) :
    getSymmetricAffinities P n dist sigmas i j
      = getSymmetricAffinities P n dist sigmas j i := by
  rw [symAff_entry, symAff_entry]
  ring

theorem symAff_diag (P : MathPrims) (n : ℕ) (dist : ℕ → ℕ → ℚ)
    (sigmas : ℕ → ℚ) (i : ℕ) :
    getSymmetricAffinities P n dist sigmas i i = 0 := by
  simp [getSymmetricAffinities]

theorem symAff_total (P : MathPrims) (hexp : ∀ x, 0 < P.exp x) (n : ℕ)
    (hn : 2 ≤ n) (dist : ℕ → ℕ → ℚ) (sigmas : ℕ → ℚ) :
    ∑ i ∈ Finset.range n, ∑ j ∈ Finset.range n,
      getSymmetricAffinities P n dist sigmas i j = 1 := by
  have hrow : ∀ i ∈ Finset.range n,
      ∑ j ∈ Finset.range n,
        getAffinities P n (fun k => dist i k) (sigmas i) i j = 1 := by
    intro i hi
    exact getAffinities_row_sum P hexp n _ _ i hn (Finset.mem_range.mp hi)
  have h2n : (2 * (n : ℚ)) ≠ 0 := by
    have : (0 : ℚ) < n := by exact_mod_cast Nat.lt_of_lt_of_le Nat.zero_lt_two hn
    positivity
  calc ∑ i ∈ Finset.range n, ∑ j ∈ Finset.range n,
        getSymmetricAffinities P n dist sigmas i j
      = ∑ i ∈ Finset.range n, ∑ j ∈ Finset.range n,
          (getAffinities P n (fun k => dist i k) (sigmas i) i j
            + getAffinities P n (fun k => dist j k) (sigmas j) j i) / (2 * n) := by
        exact Finset.sum_congr rfl fun i _ => Finset.sum_congr rfl fun j _ =>
          symAff_entry P n dist sigmas i j
    _ = (∑ i ∈ Finset.range n, ∑ j ∈ Finset.range n,
          getAffinities P n (fun k => dist i k) (sigmas i) i j) / (2 * n)
        + (∑ i ∈ Finset.range n, ∑ j ∈ Finset.range n,
          getAffinities P n (fun k => dist j k) (sigmas j) j i) / (2 * n) := by
        simp only [add_div, Finset.sum_add_distrib, Finset.sum_div]
    _ = (n : ℚ) / (2 * n) + (n : ℚ) / (2 * n) := by
        congr 1
        · rw [Finset.sum_congr rfl hrow, Finset.sum_const, Finset.card_range]
          simp
        · rw [Finset.sum_comm, Finset.sum_congr rfl hrow, Finset.sum_const,
            Finset.card_range]
          simp
    _ = 1 := by
        field_simp
        ring

/-- C6: the symmetric high-dimensional affinity matrix (the one built
once per transform call from the calibrated sigmas, but the statement
holds for any sigma vector) is symmetric, has zero diagonal, has
off-diagonal entries (p(j given i) + p(i given j)) / (2n), and all of
its entries sum to 1. -/
theorem c6_symmetric_affinities (P : MathPrims) (n : ℕ) (dist : ℕ → ℕ → ℚ)
    (sigmas : ℕ → ℚ) (hexp : ∀ x, 0 < P.exp x) (hn : 2 ≤ n) :
    (∀ i j, getSymmetricAffinities P n dist sigmas i j
      = getSymmetricAffinities P n dist sigmas j i)
    ∧ (∀ i, getSymmetricAffinities P n dist sigmas i i = 0)
    ∧ (∀ i j, i ≠ j → getSymmetricAffinities P n dist sigmas i j
        = (getAffinities P n (fun k => dist i k) (sigmas i) i j
          + getAffinities P n (fun k => dist j k) (sigmas j) j i) / (2 * n))
    ∧ ∑ i ∈ Finset.range n, ∑ j ∈ Finset.range n,
        getSymmetricAffinities P n dist sigmas i j = 1 :=
  ⟨symAff_symm P n dist sigmas, symAff_diag P n dist sigmas,
   fun i j _ => symAff_entry P n dist sigmas i j,
   symAff_total P hexp n hn dist sigmas⟩

theorem c6_witness :
    (∀ x : ℚ, 0 < cWitPrims.exp x) ∧ 2 ≤ 2
    ∧ ((∀ i j, getSymmetricAffinities cWitPrims 2 (getPairwiseDistances c3X)
          (Src.sigmasOf cWitPrims defaultConfig c3X) i j
        = getSymmetricAffinities cWitPrims 2 (getPairwiseDistances c3X)
            (Src.sigmasOf cWitPrims defaultConfig c3X) j i)
      ∧ (∀ i, getSymmetricAffinities cWitPrims 2 (getPairwiseDistances c3X)
          (Src.sigmasOf cWitPrims defaultConfig c3X) i i = 0)
      ∧ (∀ i j, i ≠ j → getSymmetricAffinities cWitPrims 2
            (getPairwiseDistances c3X)
            (Src.sigmasOf cWitPrims defaultConfig c3X) i j
          = (getAffinities cWitPrims 2 (fun k => getPairwiseDistances c3X i k)
              (Src.sigmasOf cWitPrims defaultConfig c3X i) i j
            + getAffinities cWitPrims 2 (fun k => getPairwiseDistances c3X j k)
              (Src.sigmasOf cWitPrims defaultConfig c3X j) j i) / (2 * 2))
      ∧ ∑ i ∈ Finset.range 2, ∑ j ∈ Finset.range 2,
          getSymmetricAffinities cWitPrims 2 (getPairwiseDistances c3X)
            (Src.sigmasOf cWitPrims defaultConfig c3X) i j = 1) :=
  ⟨fun x => by show (0 : ℚ) < 1; norm_num, by omega,
   by
    have h := c6_symmetric_affinities cWitPrims 2 (getPairwiseDistances c3X)
      (Src.sigmasOf cWitPrims defaultConfig c3X)
      (fun x => by show (0 : ℚ) < 1; norm_num) (by omega)
    simpa using h⟩

theorem sum_square_eq_triangle (f : ℕ → ℕ → ℚ) (n : ℕ)
    (hsymm : ∀ i j, f i j = f j i) (hdiag : ∀ i, f i i = 0) :
    ∑ i ∈ Finset.range n, ∑ j ∈ Finset.range n, f i j
      = ∑ i ∈ Finset.range n, ∑ j ∈ Finset.Ico (i + 1) n, 2 * f i j := by
  induction n with
  | zero => simp
  | succ n ih =>
    have hrow : ∑ j ∈ Finset.range (n + 1), f n j
        = ∑ j ∈ Finset.range n, f j n := by
      rw [Finset.sum_range_succ, hdiag, add_zero]
      exact Finset.sum_congr rfl fun j _ => hsymm n j
    have hL : ∑ i ∈ Finset.range (n + 1), ∑ j ∈ Finset.range (n + 1), f i j
        = (∑ i ∈ Finset.range n, ∑ j ∈ Finset.range n, f i j)
          + 2 * ∑ i ∈ Finset.range n, f i n := by
      rw [Finset.sum_range_succ, hrow,
        Finset.sum_congr rfl fun i (_ : i ∈ Finset.range n) =>
          Finset.sum_range_succ (f i) n,
        Finset.sum_add_distrib]
      ring
    have hR : ∑ i ∈ Finset.range (n + 1), ∑ j ∈ Finset.Ico (i + 1) (n + 1), 2 * f i j
        = (∑ i ∈ Finset.range n, ∑ j ∈ Finset.Ico (i + 1) n, 2 * f i j)
          + 2 * ∑ i ∈ Finset.range n, f i n := by
      rw [Finset.sum_range_succ, Finset.Ico_self, Finset.sum_empty, add_zero,
        Finset.sum_congr rfl fun i (hi : i ∈ Finset.range n) =>
          Finset.sum_Ico_succ_top (Finset.mem_range.mp hi) (fun j => 2 * f i j),
        Finset.sum_add_distrib, Finset.mul_sum]
    rw [hL, hR, ih]

theorem src_projRaw_eq (Y : List (List ℚ)) (i j : ℕ) :
    Src.projRaw Y i j
      = if i = j then 0 else 1 / (1 + getPairwiseDistances Y i j) := by
  unfold Src.projRaw getPairwiseDistances
  by_cases h : i = j
  · simp [h]
  · by_cases hlt : i < j
    · simp [h, hlt]
    · simp [h, hlt]

theorem src_projSum_eq (Y : List (List ℚ)) (n : ℕ) :
    Src.projSum n Y
      = ∑ i ∈ Finset.range n, ∑ j ∈ Finset.range n,
          (if i = j then 0 else 1 / (1 + getPairwiseDistances Y i j)) := by
  rw [sum_square_eq_triangle
    (fun i j => if i = j then 0 else 1 / (1 + getPairwiseDistances Y i j)) n
    (fun i j => by
      by_cases h : i = j
      · simp [h]
      · have h2 : ¬j = i := fun e => h e.symm
        simp only [h, h2, if_false, ite_false]
        rw [pairwise_symm Y i j])
    (fun i => by simp)]
  unfold Src.projSum
  refine Finset.sum_congr rfl fun i _ => Finset.sum_congr rfl fun j hj => ?_
  have hij : i < j := by
    have h := Finset.mem_Ico.mp hj
    omega
  rw [if_neg (Nat.ne_of_lt hij)]
  unfold getPairwiseDistances
  rw [if_neg (Nat.ne_of_lt hij), if_pos hij]

theorem src_projSum_pos (Y : List (List ℚ)) (n : ℕ) (hn : 2 ≤ n) :
    0 < Src.projSum n Y := by
  have hterm : ∀ i j : ℕ, 0 < 2 * (1 / (1
      + squaredEuclideanDistance (Y.getD i []) (Y.getD j []))) := by
    intro i j
    have h1 : 0 < 1 + squaredEuclideanDistance (Y.getD i []) (Y.getD j []) := by
      have := sqdist_nonneg (Y.getD i []) (Y.getD j [])
      linarith
    exact mul_pos two_pos (div_pos one_pos h1)
  unfold Src.projSum
  apply Finset.sum_pos'
  · intro i _
    exact Finset.sum_nonneg fun j _ => (hterm i j).le
  · refine ⟨0, Finset.mem_range.mpr (by omega), ?_⟩
    apply Finset.sum_pos
    · intro j _
      exact hterm 0 j
    · exact ⟨1, Finset.mem_Ico.mpr ⟨le_refl 1, by omega⟩⟩

theorem part_invD_eq (Y : List (List ℚ)) (i j : ℕ) :
    Part.invertedDistances (getPairwiseDistances Y) i j
      = 1 / (1 + getPairwiseDistances Y i j) := by
  unfold Part.invertedDistances
  by_cases h : i ≤ j
  · rw [if_pos h]
  · rw [if_neg h, pairwise_symm Y j i]

theorem part_projSum_eq (Y : List (List ℚ)) (n : ℕ) :
    Part.projSum n Y
      = (n : ℚ) + ∑ i ∈ Finset.range n, ∑ j ∈ Finset.range n,
          (if i = j then 0 else 1 / (1 + getPairwiseDistances Y i j)) := by
  unfold Part.projSum
  have hpt : ∀ i j : ℕ, Part.invertedDistances (getPairwiseDistances Y) i j
      = (if i = j then (1 : ℚ) else 0)
        + (if i = j then 0 else 1 / (1 + getPairwiseDistances Y i j)) := by
    intro i j
    rw [part_invD_eq]
    by_cases h : i = j
    · subst h
      rw [pairwise_diag]
      norm_num
    · rw [if_neg h, if_neg h, zero_add]
  rw [Finset.sum_congr rfl fun i (_ : i ∈ Finset.range n) =>
    Finset.sum_congr rfl fun j (_ : j ∈ Finset.range n) => hpt i j]
  have h1 : ∑ i ∈ Finset.range n, ∑ j ∈ Finset.range n,
      (if i = j then (1 : ℚ) else 0) = n := by
    rw [Finset.sum_congr rfl fun i (hi : i ∈ Finset.range n) => by
      rw [Finset.sum_ite_eq (Finset.range n) i (fun _ => (1 : ℚ)), if_pos hi]]
    rw [Finset.sum_const, Finset.card_range, nsmul_eq_mul, mul_one]
  rw [Finset.sum_congr rfl fun i (_ : i ∈ Finset.range n) =>
    Finset.sum_add_distrib, Finset.sum_add_distrib, h1]

theorem part_projSum_pos (Y : List (List ℚ)) (n : ℕ) (hn : 2 ≤ n) :
    0 < Part.projSum n Y := by
  rw [part_projSum_eq]
  have hS : 0 ≤ ∑ i ∈ Finset.range n, ∑ j ∈ Finset.range n,
      (if i = j then 0 else 1 / (1 + getPairwiseDistances Y i j)) := by
    refine Finset.sum_nonneg fun i _ => Finset.sum_nonneg fun j _ => ?_
    split_ifs
    · exact le_refl 0
    · have h1 : 0 < 1 + getPairwiseDistances Y i j := by
        have := pairwise_nonneg Y i j
        linarith
      positivity
  have hcast : (2 : ℚ) ≤ n := by exact_mod_cast hn
  linarith

theorem src_proj_total (Y : List (List ℚ)) (n : ℕ) (hn : 2 ≤ n) :
    ∑ i ∈ Finset.range n, ∑ j ∈ Finset.range n,
      Src.getProjectedAffinities n Y i j = 1 := by
  unfold Src.getProjectedAffinities
  have h1 : ∑ i ∈ Finset.range n, ∑ j ∈ Finset.range n, Src.projRaw Y i j
      = Src.projSum n Y := by
    rw [src_projSum_eq]
    exact Finset.sum_congr rfl fun i _ => Finset.sum_congr rfl fun j _ =>
      src_projRaw_eq Y i j
  rw [Finset.sum_congr rfl fun i (_ : i ∈ Finset.range n) =>
    (Finset.sum_div (Finset.range n) (fun j => Src.projRaw Y i j)
      (Src.projSum n Y)).symm, ← Finset.sum_div, h1]
  exact div_self (ne_of_gt (src_projSum_pos Y n hn))

theorem part_proj_total (Y : List (List ℚ)) (n : ℕ) (hn : 2 ≤ n) :
    ∑ i ∈ Finset.range n, ∑ j ∈ Finset.range n,
      Part.projectedAffinities n Y i j = 1 := by
  unfold Part.projectedAffinities
  rw [Finset.sum_congr rfl fun i (_ : i ∈ Finset.range n) =>
    (Finset.sum_div (Finset.range n)
      (fun j => Part.invertedDistances (getPairwiseDistances Y) i j)
      (Part.projSum n Y)).symm, ← Finset.sum_div]
  exact div_self (ne_of_gt (part_projSum_pos Y n hn))

/-- C1 amended: in the index.ts variant the projected affinity matrix Q
has zero diagonal, off-diagonal entries (1/(1+d_ij)) / S with S the sum
of 1/(1+d_kl) over all off-diagonal pairs, and total mass 1, exactly as
claimed.  In the part_000 variant, however, the normalizing sum also
includes the n diagonal cells of the inverted-distance buffer (each
equal to 1): every entry is (1/(1+d_ij)) / (n + S), the diagonal entries
are 1/(n+S), which is not 0, and the total mass is again 1. -/
theorem c1_projected_affinities (Y : List (List ℚ)) (m n : ℕ)
    (hn : 2 ≤ n) (hlen : Y.length = n) (hm : ∀ r ∈ Y, r.length = m) :
    (∀ i, Src.getProjectedAffinities n Y i i = 0)
    ∧ (∀ i j, i < n → j < n → i ≠ j →
        Src.getProjectedAffinities n Y i j
          = (1 / (1 + squaredEuclideanDistance (Y.getD i []) (Y.getD j [])))
            / ∑ k ∈ Finset.range n, ∑ l ∈ Finset.range n,
                (if k = l then 0 else 1 / (1 + getPairwiseDistances Y k l)))
    ∧ (∑ i ∈ Finset.range n, ∑ j ∈ Finset.range n,
        Src.getProjectedAffinities n Y i j) = 1
    ∧ (∀ i j, Part.projectedAffinities n Y i j
        = (1 / (1 + getPairwiseDistances Y i j))
          / ((n : ℚ) + ∑ k ∈ Finset.range n, ∑ l ∈ Finset.range n,
              (if k = l then 0 else 1 / (1 + getPairwiseDistances Y k l))))
    ∧ (∀ i, Part.projectedAffinities n Y i i
        = 1 / ((n : ℚ) + ∑ k ∈ Finset.range n, ∑ l ∈ Finset.range n,
            (if k = l then 0 else 1 / (1 + getPairwiseDistances Y k l))))
    ∧ (∑ i ∈ Finset.range n, ∑ j ∈ Finset.range n,
        Part.projectedAffinities n Y i j) = 1 := by
  refine ⟨?_, ?_, src_proj_total Y n hn, ?_, ?_, part_proj_total Y n hn⟩
  · intro i
    unfold Src.getProjectedAffinities
    rw [src_projRaw_eq]
    simp
  · intro i j hi hj hij
    rw [← src_projSum_eq]
    unfold Src.getProjectedAffinities
    rw [src_projRaw_eq, if_neg hij,
      pairwise_entry Y m hm i j (hlen ▸ hi) (hlen ▸ hj) hij]
  · intro i j
    unfold Part.projectedAffinities
    rw [part_projSum_eq, part_invD_eq]
  · intro i
    unfold Part.projectedAffinities
    rw [part_projSum_eq, part_invD_eq, pairwise_diag]
    norm_num

/-- C1 counterexample: for the embedding [[1/4],[-1/4]] (the random
projection of the stream 3/4, 1/4 with n = 2, nDims = 1), the projected
affinity matrix of the part_000 variant has diagonal entry (0,0) equal
to 5/18, not 0 as the claim requires. -/
theorem c1Y_eval : c1Y = [[1 / 4], [-(1 / 4)]] := by
  norm_num [c1Y, initRandomProjection, List.range_succ]

theorem c1_counterexample :
    Part.projectedAffinities 2 c1Y 0 0 = 5 / 18 ∧ (5 / 18 : ℚ) ≠ 0 := by
  constructor
  · rw [c1Y_eval]
    norm_num [Part.projectedAffinities, Part.projSum, Part.invertedDistances,
      getPairwiseDistances, squaredEuclideanDistance, Finset.sum_range_succ]
  · norm_num

theorem c1_witness :
    2 ≤ 2 ∧ c1Y.length = 2 ∧ (∀ r ∈ c1Y, r.length = 1)
    ∧ ((∀ i, Src.getProjectedAffinities 2 c1Y i i = 0)
      ∧ (∀ i j, i < 2 → j < 2 → i ≠ j →
          Src.getProjectedAffinities 2 c1Y i j
            = (1 / (1 + squaredEuclideanDistance (c1Y.getD i []) (c1Y.getD j [])))
              / ∑ k ∈ Finset.range 2, ∑ l ∈ Finset.range 2,
                  (if k = l then 0 else 1 / (1 + getPairwiseDistances c1Y k l)))
      ∧ (∑ i ∈ Finset.range 2, ∑ j ∈ Finset.range 2,
          Src.getProjectedAffinities 2 c1Y i j) = 1
      ∧ (∀ i j, Part.projectedAffinities 2 c1Y i j
          = (1 / (1 + getPairwiseDistances c1Y i j))
            / ((2 : ℚ) + ∑ k ∈ Finset.range 2, ∑ l ∈ Finset.range 2,
                (if k = l then 0 else 1 / (1 + getPairwiseDistances c1Y k l))))
      ∧ (∀ i, Part.projectedAffinities 2 c1Y i i
          = 1 / ((2 : ℚ) + ∑ k ∈ Finset.range 2, ∑ l ∈ Finset.range 2,
              (if k = l then 0 else 1 / (1 + getPairwiseDistances c1Y k l))))
      ∧ (∑ i ∈ Finset.range 2, ∑ j ∈ Finset.range 2,
          Part.projectedAffinities 2 c1Y i j) = 1) :=
  ⟨by omega, by decide, by decide,
   by
    have h := c1_projected_affinities c1Y 1 2 (by omega) (by decide) (by decide)
    simpa using h⟩

theorem sigmaLoopSteps_fst (P : MathPrims) (target tol : ℚ) (n : ℕ)
    (pd : ℕ → ℚ) (r : ℕ) (fuel : ℕ) (lower upper : ℚ) :
    (sigmaLoopSteps P target tol n pd r fuel lower upper).1
      = sigmaLoop P target tol n pd r fuel lower upper := by
  induction fuel generalizing lower upper with
  | zero => rfl
  | succ f ih =>
    unfold sigmaLoopSteps sigmaLoop
    by_cases h1 : |getPerplexity P n
        (getAffinities P n pd ((upper + lower) / 2) r) - target| ≤ tol
    · simp [h1]
    · by_cases h2 : f = 0
      · simp [h1, h2]
      · by_cases h3 : getPerplexity P n
            (getAffinities P n pd ((upper + lower) / 2) r) < target
        · simp [h1, h2, h3, ih]
        · simp [h1, h2, h3, ih]

theorem sigmaLoopSteps_le (P : MathPrims) (target tol : ℚ) (n : ℕ)
    (pd : ℕ → ℚ) (r : ℕ) (fuel : ℕ) (lower upper : ℚ) :
    (sigmaLoopSteps P target tol n pd r fuel lower upper).2 ≤ fuel := by
  induction fuel generalizing lower upper with
  | zero => simp [sigmaLoopSteps]
  | succ f ih =>
    unfold sigmaLoopSteps
    by_cases h1 : |getPerplexity P n
        (getAffinities P n pd ((upper + lower) / 2) r) - target| ≤ tol
    · simp [h1]
    · by_cases h2 : f = 0
      · simp [h1, h2]
      · by_cases h3 : getPerplexity P n
            (getAffinities P n pd ((upper + lower) / 2) r) < target
        · simp only [h1, h2, h3, if_false, if_true, ite_true, ite_false]
          exact Nat.succ_le_succ (ih _ _)
        · simp only [h1, h2, h3, if_false, if_true, ite_true, ite_false]
          exact Nat.succ_le_succ (ih _ _)

theorem sigmaLoopSteps_pos (P : MathPrims) (target tol : ℚ) (n : ℕ)
    (pd : ℕ → ℚ) (r : ℕ) (fuel : ℕ) (hf : 1 ≤ fuel) (lower upper : ℚ) :
    1 ≤ (sigmaLoopSteps P target tol n pd r fuel lower upper).2 := by
  cases fuel with
  | zero => omega
  | succ f =>
    unfold sigmaLoopSteps
    by_cases h1 : |getPerplexity P n
        (getAffinities P n pd ((upper + lower) / 2) r) - target| ≤ tol
    · simp [h1]
    · by_cases h2 : f = 0
      · simp [h1, h2]
      · by_cases h3 : getPerplexity P n
            (getAffinities P n pd ((upper + lower) / 2) r) < target
        · simp only [h1, h2, h3, if_false, if_true, ite_true, ite_false]
          omega
        · simp only [h1, h2, h3, if_false, if_true, ite_true, ite_false]
          omega

theorem sigmaLoop_tol_or_exhaust (P : MathPrims) (target tol : ℚ) (n : ℕ)
    (pd : ℕ → ℚ) (r : ℕ) (fuel : ℕ) (hf : 1 ≤ fuel) (lower upper : ℚ) :
    |getPerplexity P n (getAffinities P n pd
        (sigmaLoop P target tol n pd r fuel lower upper) r) - target| ≤ tol
    ∨ (sigmaLoopSteps P target tol n pd r fuel lower upper).2 = fuel := by
  induction fuel generalizing lower upper with
  | zero => omega
  | succ f ih =>
    unfold sigmaLoop sigmaLoopSteps
    by_cases h1 : |getPerplexity P n
        (getAffinities P n pd ((upper + lower) / 2) r) - target| ≤ tol
    · left
      simp only [if_pos h1]
      exact h1
    · by_cases h2 : f = 0
      · right
        simp [h1, h2]
      · by_cases h3 : getPerplexity P n
            (getAffinities P n pd ((upper + lower) / 2) r) < target
        · simp only [h1, h2, h3, if_false, if_true, ite_true, ite_false]
          rcases ih (by omega) ((upper + lower) / 2) upper with h | h
          · exact Or.inl h
          · exact Or.inr (by omega)
        · simp only [h1, h2, h3, if_false, if_true, ite_true, ite_false]
          rcases ih (by omega) lower ((upper + lower) / 2) with h | h
          · exact Or.inl h
          · exact Or.inr (by omega)

/-- C8: the binary search of findBestSigmas starts from the interval
[1e-3, ln(maxDistance + 1e-6) + 10] with the 50 iteration cap (first two
conjuncts, for the index.ts tolerance 1e-6 and the part_000 tolerance
1e-3); each non-final step takes the interval midpoint as sigma, stops
when the perplexity of that point is within the tolerance of the target,
and otherwise raises the lower bound to sigma when the perplexity is
below the target and lowers the upper bound to sigma when it is not
(third conjunct); the loop executes between 1 and 50 steps, the recorded
sigma is the one in use when the loop ends, and either the recorded
sigma meets the tolerance or all 50 steps were used, exhaustion not
being an error (remaining conjuncts). -/
theorem c8_sigma_search (P : MathPrims) (cfg : TSNEConfig) (n : ℕ)
    (dist : ℕ → ℕ → ℚ) (i : ℕ) (target tol : ℚ) (pd : ℕ → ℚ) (r : ℕ)
    (f : ℕ) (lower upper : ℚ) :
    (Src.findBestSigmas P cfg n dist i
      = sigmaLoop P cfg.perplexity (1 / 1000000) n (fun j => dist i j) i 50
          (1 / 1000) (P.log (maxDistance n dist + 1 / 1000000) + 10))
    ∧ (Part.findBestSigmas P cfg n dist i
      = sigmaLoop P cfg.perplexity (1 / 1000) n (fun j => dist i j) i 50
          (1 / 1000) (P.log (maxDistance n dist + 1 / 1000000) + 10))
    ∧ (sigmaLoop P target tol n pd r (f + 2) lower upper
      = if |getPerplexity P n (getAffinities P n pd ((upper + lower) / 2) r)
            - target| ≤ tol
          then (upper + lower) / 2
        else if getPerplexity P n (getAffinities P n pd ((upper + lower) / 2) r)
            < target
          then sigmaLoop P target tol n pd r (f + 1) ((upper + lower) / 2) upper
          else sigmaLoop P target tol n pd r (f + 1) lower ((upper + lower) / 2))
    ∧ (sigmaLoopSteps P target tol n pd r 50 lower upper).2 ≤ 50
    ∧ 1 ≤ (sigmaLoopSteps P target tol n pd r 50 lower upper).2
    ∧ (sigmaLoopSteps P target tol n pd r 50 lower upper).1
        = sigmaLoop P target tol n pd r 50 lower upper
    ∧ (|getPerplexity P n (getAffinities P n pd
          (sigmaLoop P target tol n pd r 50 lower upper) r) - target| ≤ tol
        ∨ (sigmaLoopSteps P target tol n pd r 50 lower upper).2 = 50) :=
  ⟨rfl, rfl,
   by
    conv_lhs => rw [sigmaLoop]
    rw [if_neg (Nat.succ_ne_zero f)],
   sigmaLoopSteps_le P target tol n pd r 50 lower upper,
   sigmaLoopSteps_pos P target tol n pd r 50 (by omega) lower upper,
   sigmaLoopSteps_fst P target tol n pd r 50 lower upper,
   sigmaLoop_tol_or_exhaust P target tol n pd r 50 (by omega) lower upper⟩

theorem foldl_range_succ {α : Type} (g : ℕ → α → α) (k : ℕ) (s : α) :
    (List.range (k + 1)).foldl (fun a i => g i a) s
      = g k ((List.range k).foldl (fun a i => g i a) s) := by
  rw [List.range_succ, List.foldl_append]
  rfl

theorem src_optimize_succ (P : MathPrims) (cfg : TSNEConfig) (rand : ℕ → ℚ)
    (X : List (List ℚ)) (k : ℕ) :
    Src.optimize P cfg rand X (k + 1)
      = Src.optStep cfg (Src.affOf P cfg X) X.length k
          (Src.optimize P cfg rand X k) := by
  unfold Src.optimize
  exact foldl_range_succ
    (fun i s => Src.optStep cfg (Src.affOf P cfg X) X.length i s) k _

theorem part_optimize_succ (P : MathPrims) (cfg : TSNEConfig) (rand : ℕ → ℚ)
    (X : List (List ℚ)) (k : ℕ) :
    Part.optimize P cfg rand X (k + 1)
      = Part.optStep cfg (Part.affOf P cfg X) X.length k
          (Part.optimize P cfg rand X k) := by
  unfold Part.optimize
  exact foldl_range_succ
    (fun i s => Part.optStep cfg (Part.affOf P cfg X) X.length i s) k _

/-- C10: both transforms are total functions (they are definitions by
structural recursion, so they terminate on every input); the returned
embedding is the first component of the optimizer state after exactly
nIter steps, and the state after k+1 steps is always one coordinate
update applied to the state after k steps — an unfolding valid for every
k and every input, with no convergence test or other early exit, so the
step count never depends on the gradient. -/
theorem c10_optimizer (P : MathPrims) (cfg : TSNEConfig) (rand : ℕ → ℚ)
    (X : List (List ℚ)) :
    (Src.transform P cfg rand X = (Src.optimize P cfg rand X cfg.nIter).1)
    ∧ (∀ k, Src.optimize P cfg rand X (k + 1)
        = Src.optStep cfg (Src.affOf P cfg X) X.length k
            (Src.optimize P cfg rand X k))
    ∧ (Part.transform P cfg rand X = (Part.optimize P cfg rand X cfg.nIter).1)
    ∧ (∀ k, Part.optimize P cfg rand X (k + 1)
        = Part.optStep cfg (Part.affOf P cfg X) X.length k
            (Part.optimize P cfg rand X k)) :=
  ⟨rfl, src_optimize_succ P cfg rand X, rfl, part_optimize_succ P cfg rand X⟩

theorem init_shape (rand : ℕ → ℚ) (n d : ℕ) :
    (initRandomProjection rand n d).length = n
    ∧ ∀ r ∈ initRandomProjection rand n d, r.length = d := by
  constructor
  · simp [initRandomProjection]
  · intro r hr
    simp only [initRandomProjection, List.mem_map] at hr
    obtain ⟨j, hj, hr⟩ := hr
    rw [← hr]
    simp

theorem src_optStep_shape (cfg : TSNEConfig) (aff : ℕ → ℕ → ℚ) (n i : ℕ)
    (s : List (List ℚ) × List (List ℚ)) :
    ((Src.optStep cfg aff n i s).1).length = n
    ∧ ∀ r ∈ (Src.optStep cfg aff n i s).1, r.length = cfg.nDims := by
  constructor
  · simp [Src.optStep]
  · intro r hr
    simp only [Src.optStep, List.mem_map] at hr
    obtain ⟨j, hj, hr⟩ := hr
    rw [← hr]
    simp

theorem part_optStep_shape (cfg : TSNEConfig) (aff : ℕ → ℕ → ℚ) (n i : ℕ)
    (s : List (List ℚ) × List (List ℚ)) :
    ((Part.optStep cfg aff n i s).1).length = n
    ∧ ∀ r ∈ (Part.optStep cfg aff n i s).1, r.length = cfg.nDims := by
  constructor
  · simp [Part.optStep]
  · intro r hr
    simp only [Part.optStep, List.mem_map] at hr
    obtain ⟨j, hj, hr⟩ := hr
    rw [← hr]
    simp

theorem src_optimize_shape (P : MathPrims) (cfg : TSNEConfig) (rand : ℕ → ℚ)
    (X : List (List ℚ)) (k : ℕ) :
    ((Src.optimize P cfg rand X k).1).length = X.length
    ∧ ∀ r ∈ (Src.optimize P cfg rand X k).1, r.length = cfg.nDims := by
  cases k with
  | zero => exact init_shape rand X.length cfg.nDims
  | succ k =>
    rw [src_optimize_succ]
    exact src_optStep_shape cfg (Src.affOf P cfg X) X.length k _

theorem part_optimize_shape (P : MathPrims) (cfg : TSNEConfig) (rand : ℕ → ℚ)
    (X : List (List ℚ)) (k : ℕ) :
    ((Part.optimize P cfg rand X k).1).length = X.length
    ∧ ∀ r ∈ (Part.optimize P cfg rand X k).1, r.length = cfg.nDims := by
  cases k with
  | zero => exact init_shape rand X.length cfg.nDims
  | succ k =>
    rw [part_optimize_succ]
    exact part_optStep_shape cfg (Part.affOf P cfg X) X.length k _

/-- C4: for every input and configuration (in particular every valid
one), both variants of transform return a matrix with exactly as many
rows as the input and every row of length exactly nDims. -/
theorem c4_transform_shape (P : MathPrims) (cfg : TSNEConfig) (rand : ℕ → ℚ)
    (X : List (List ℚ)) :
    (Src.transform P cfg rand X).length = X.length
    ∧ (∀ r ∈ Src.transform P cfg rand X, r.length = cfg.nDims)
    ∧ (Part.transform P cfg rand X).length = X.length
    ∧ (∀ r ∈ Part.transform P cfg rand X, r.length = cfg.nDims) :=
  ⟨(src_optimize_shape P cfg rand X cfg.nIter).1,
   (src_optimize_shape P cfg rand X cfg.nIter).2,
   (part_optimize_shape P cfg rand X cfg.nIter).1,
   (part_optimize_shape P cfg rand X cfg.nIter).2⟩

/-- C3 amended: the two variants share the validation, distance,
conditional-affinity, symmetrization, initialization and momentum
computations, and with zero optimizer iterations (nIter = 0) their
transforms return the same embedding; with at least one iteration the
embeddings differ in general, because part_000 normalizes the projected
affinities by a sum that includes the n diagonal cells of the
inverted-distance buffer while index.ts normalizes over the off-diagonal
cells only, and because the sigma-search tolerances differ (1e-6 in
index.ts, 1e-3 in part_000). -/
theorem c3_transform_equiv (P : MathPrims) (cfg : TSNEConfig) (rand : ℕ → ℚ)
    (X : List (List ℚ)) (h : cfg.nIter = 0) :
    Src.transform P cfg rand X = Part.transform P cfg rand X := by
  unfold Src.transform Part.transform Src.optimize Part.optimize
  rw [h]
  simp

theorem c3_witness :
    c3CfgZero.nIter = 0
    ∧ Src.transform c3Prims c3CfgZero c3Rand c3X
        = Part.transform c3Prims c3CfgZero c3Rand c3X :=
  ⟨rfl, c3_transform_equiv c3Prims c3CfgZero c3Rand c3X rfl⟩

theorem c3_sum (pd : ℕ → ℚ) (sigma : ℚ) (r : ℕ) (hr : r < 2) :
    affinitySum c3Prims 2 pd sigma r = 1 := by
  unfold affinitySum
  interval_cases r
  · rw [show (Finset.range 2).erase 0 = {1} by decide, Finset.sum_singleton]
    simp [affinityRaw, c3Prims]
  · rw [show (Finset.range 2).erase 1 = {0} by decide, Finset.sum_singleton]
    simp [affinityRaw, c3Prims]

theorem c3_ga (pd : ℕ → ℚ) (sigma : ℚ) (r : ℕ) (hr : r < 2) (i : ℕ) :
    getAffinities c3Prims 2 pd sigma r i = if i = r then 0 else 1 := by
  unfold getAffinities
  rw [c3_sum pd sigma r hr, div_one]
  simp [affinityRaw, c3Prims]

theorem c3_src_aff (i j : ℕ) (hi : i < 2) (hj : j < 2) :
    Src.affOf c3Prims c3Cfg c3X i j = if i = j then 0 else 1 / 2 := by
  unfold Src.affOf getSymmetricAffinities
  rw [show c3X.length = 2 from rfl]
  by_cases h : i = j
  · simp [h]
  · rw [if_neg h, if_neg h, c3_ga _ _ i hi j, c3_ga _ _ j hj i,
      if_neg (fun e => h e.symm), if_neg h]
    norm_num

theorem c3_part_aff (i j : ℕ) (hi : i < 2) (hj : j < 2) :
    Part.affOf c3Prims c3Cfg c3X i j = if i = j then 0 else 1 / 2 := by
  unfold Part.affOf getSymmetricAffinities
  rw [show c3X.length = 2 from rfl]
  by_cases h : i = j
  · simp [h]
  · rw [if_neg h, if_neg h, c3_ga _ _ i hi j, c3_ga _ _ j hj i,
      if_neg (fun e => h e.symm), if_neg h]
    norm_num

theorem c3_Y0 : initRandomProjection c3Rand 2 1 = [[1 / 4], [-(1 / 4)]] := by
  norm_num [initRandomProjection, c3Rand, List.range_succ]

theorem c3_src_eval :
    Src.transform c3Prims c3Cfg c3Rand c3X = [[1 / 4], [-(1 / 4)]] := by
  show (Src.optimize c3Prims c3Cfg c3Rand c3X c3Cfg.nIter).1 = _
  rw [show c3Cfg.nIter = 1 from rfl, src_optimize_succ,
    show Src.optimize c3Prims c3Cfg c3Rand c3X 0
      = (initRandomProjection c3Rand c3X.length c3Cfg.nDims,
         initRandomProjection c3Rand c3X.length c3Cfg.nDims) from rfl,
    show c3X.length = 2 from rfl, show c3Cfg.nDims = 1 from rfl, c3_Y0]
  unfold Src.optStep
  norm_num [List.range_succ, Src.getGradient, Src.getProjectedAffinities,
    Src.projRaw, Src.projSum, squaredEuclideanDistance, getMomentum,
    Finset.sum_range_succ, Finset.sum_range_zero, c3_src_aff,
    show c3Cfg.learningRate = 1 from rfl, show c3Cfg.nDims = 1 from rfl,
    List.getD_cons_zero, List.getD_cons_succ]

theorem c3_part_eval :
    Part.transform c3Prims c3Cfg c3Rand c3X = [[-(7 / 36)], [7 / 36]] := by
  show (Part.optimize c3Prims c3Cfg c3Rand c3X c3Cfg.nIter).1 = _
  rw [show c3Cfg.nIter = 1 from rfl, part_optimize_succ,
    show Part.optimize c3Prims c3Cfg c3Rand c3X 0
      = (initRandomProjection c3Rand c3X.length c3Cfg.nDims,
         initRandomProjection c3Rand c3X.length c3Cfg.nDims) from rfl,
    show c3X.length = 2 from rfl, show c3Cfg.nDims = 1 from rfl, c3_Y0]
  unfold Part.optStep
  norm_num [List.range_succ, Part.updateGradient, Part.projectedAffinities,
    Part.invertedDistances, Part.projSum, getPairwiseDistances,
    squaredEuclideanDistance, getMomentum, Finset.sum_range_succ,
    Finset.sum_range_zero, c3_part_aff,
    show c3Cfg.learningRate = 1 from rfl, show c3Cfg.nDims = 1 from rfl,
    List.getD_cons_zero, List.getD_cons_succ]

/-- C3 counterexample: with the same primitives, configuration (one
iteration), random stream and valid input, the two transforms return
different embeddings: index.ts returns [[1/4],[-1/4]] while part_000
returns [[-7/36],[7/36]], because the two variants normalize the
projected affinities over different index sets. -/
theorem c3_counterexample :
    Src.transform c3Prims c3Cfg c3Rand c3X
      ≠ Part.transform c3Prims c3Cfg c3Rand c3X := by
  rw [c3_src_eval, c3_part_eval]
  norm_num

end TSNEVerify
